import Mathlib

/-!
Formal model of the smart-edge-cloud-thermohygrometer repository.

The repository has two independent cores:
* `MockDHT22` (src/log_sensors_mock.py): a bounded random walk producing
  (temperature, humidity) pairs, with a clamp-then-negated-nudge policy at
  the bounds, driven by a seeded pseudo-random generator;
* schema loading and validation (src/utils/schema_validation.py): resolve a
  schema file among candidate locations and validate a JSON payload against
  a Draft 2020-12 schema.

Real numbers of the program are modelled as rationals.  The seeded
pseudo-random generator `random.Random(seed)` is modelled by the stream of
standard-normal values it produces: `gauss(0, sigma)` returns `sigma` times
the next value of the stream and advances the position.  Two generators
seeded with the same seed share the same stream, which is exactly the
determinism of `random.Random`.
-/

/-- Stream of standard-normal draws of a seeded pseudo-random generator,
together with the current position in the stream. -/
structure Rng where
  stream : Nat → ℚ
  idx : Nat

/-- Model of `random.Random.gauss(0, sigma)`: the next standard-normal value
scaled by `sigma`; the stream position advances by one, also when
`sigma = 0`. -/
def Rng.gauss (r : Rng) (sigma : ℚ) : ℚ × Rng :=
  (sigma * r.stream r.idx, ⟨r.stream, r.idx + 1⟩)

/-- Round to the nearest integer, ties to the even integer (the rounding of
Python's built-in `round`). -/
def roundHalfEven (x : ℚ) : ℤ :=
  let n := ⌊x⌋
  if x - n < 1/2 then n
  else if 1/2 < x - n then n + 1
  else if n % 2 = 0 then n else n + 1

/-- Model of Python `round(x, 1)`: one decimal place, ties to even. -/
def pyRound1 (x : ℚ) : ℚ := (roundHalfEven (x * 10) : ℚ) / 10

/-- State of a `MockDHT22` instance: the generator state and the fields set
by `MockDHT22.__init__`. -/
structure MockDHT22 where
  rng : Rng
  t : ℚ
  h : ℚ
  t_bounds : ℚ × ℚ
  h_bounds : ℚ × ℚ
  t_sigma : ℚ
  h_sigma : ℚ

namespace MockDHT22

/-- `MockDHT22.__init__`: seeding the generator selects the draw stream;
the walk starts at the given start values. -/
def init (stream : Nat → ℚ) (temp_start hum_start : ℚ)
    (temp_bounds hum_bounds : ℚ × ℚ) (temp_step_sigma hum_step_sigma : ℚ) :
    MockDHT22 :=
  { rng := ⟨stream, 0⟩, t := temp_start, h := hum_start,
    t_bounds := temp_bounds, h_bounds := hum_bounds,
    t_sigma := temp_step_sigma, h_sigma := hum_step_sigma }

/-- `MockDHT22.__init__` with the default arguments of the source. -/
def initDefault (stream : Nat → ℚ) : MockDHT22 :=
  init stream 23.5 50.0 (18.0, 30.0) (30.0, 70.0) 0.15 0.4

/-- `MockDHT22.read`: random walk with reflecting bounds.  Both channels
first add one gauss draw; a channel that left `[min, max]` is clamped to the
nearest bound and one additional gauss draw, negated, is added.  The
returned pair is rounded to one decimal; the state keeps the unrounded
values. -/
def read (s : MockDHT22) : (ℚ × ℚ) × MockDHT22 :=
  let p1 := s.rng.gauss s.t_sigma
  let t1 := s.t + p1.1
  let p2 := p1.2.gauss s.h_sigma
  let h1 := s.h + p2.1
  let tr :=
    if t1 < s.t_bounds.1 ∨ s.t_bounds.2 < t1 then
      let tc := max (min t1 s.t_bounds.2) s.t_bounds.1
      let p3 := p2.2.gauss s.t_sigma
      (tc + p3.1 * (-1), p3.2)
    else (t1, p2.2)
  let hr :=
    if h1 < s.h_bounds.1 ∨ s.h_bounds.2 < h1 then
      let hc := max (min h1 s.h_bounds.2) s.h_bounds.1
      let p4 := tr.2.gauss s.h_sigma
      (hc + p4.1 * (-1), p4.2)
    else (h1, tr.2)
  ((pyRound1 tr.1, pyRound1 hr.1),
   { s with rng := hr.2, t := tr.1, h := hr.1 })

/-- State after `n` calls of `read`. -/
def iter (s : MockDHT22) : Nat → MockDHT22
  | 0 => s
  | n + 1 => s.read.2.iter n

/-- The list of the pairs returned by `n` successive `read` calls. -/
def sampleSeq (s : MockDHT22) : Nat → List (ℚ × ℚ)
  | 0 => []
  | n + 1 => s.read.1 :: s.read.2.sampleSeq n

/-- The list of the `n` successive post-`read` states. -/
def trajectory (s : MockDHT22) : Nat → List MockDHT22
  | 0 => []
  | n + 1 => s.read.2 :: s.read.2.trajectory n

/-- The temperature after the first draw of a `read` call, before the bound
check. -/
def tempDrift (s : MockDHT22) : ℚ := s.t + s.t_sigma * s.rng.stream s.rng.idx

/-- The humidity after the second draw of a `read` call, before the bound
check. -/
def humDrift (s : MockDHT22) : ℚ :=
  s.h + s.h_sigma * s.rng.stream (s.rng.idx + 1)

/-- The temperature channel takes the reflect branch in the next `read`. -/
def tempClamps (s : MockDHT22) : Prop :=
  s.tempDrift < s.t_bounds.1 ∨ s.t_bounds.2 < s.tempDrift

/-- The humidity channel takes the reflect branch in the next `read`. -/
def humClamps (s : MockDHT22) : Prop :=
  s.humDrift < s.h_bounds.1 ∨ s.h_bounds.2 < s.humDrift

instance (s : MockDHT22) : Decidable s.tempClamps := by
  unfold tempClamps; infer_instance

instance (s : MockDHT22) : Decidable s.humClamps := by
  unfold humClamps; infer_instance

/-- The scaled corrective draw the temperature channel consumes in the next
`read` (`0` when the reflect branch is not taken). -/
def tCorr (s : MockDHT22) : ℚ :=
  if s.tempClamps then s.t_sigma * s.rng.stream (s.rng.idx + 2) else 0

/-- The scaled corrective draw the humidity channel consumes in the next
`read` (`0` when the reflect branch is not taken); its stream position
depends on whether the temperature channel clamped. -/
def hCorr (s : MockDHT22) : ℚ :=
  if s.humClamps then
    s.h_sigma * s.rng.stream (if s.tempClamps then s.rng.idx + 3 else s.rng.idx + 2)
  else 0

/-- The unrounded temperature after the next `read`: the drifted value,
clamped to the nearest bound and nudged by the negated corrective draw when
it left the bounds. -/
def tNext (s : MockDHT22) : ℚ :=
  if s.tempClamps then
    max (min s.tempDrift s.t_bounds.2) s.t_bounds.1 - s.tCorr
  else s.tempDrift

/-- The unrounded humidity after the next `read`. -/
def hNext (s : MockDHT22) : ℚ :=
  if s.humClamps then
    max (min s.humDrift s.h_bounds.2) s.h_bounds.1 - s.hCorr
  else s.humDrift

/-- Number of standard-normal draws the next `read` consumes: two, plus one
per channel that takes the reflect branch. -/
def drawsUsed (s : MockDHT22) : Nat :=
  2 + (if s.tempClamps then 1 else 0) + (if s.humClamps then 1 else 0)

/-- The per-call algorithm as the spec words it (section 4.1, steps 1 to 4):
draw and add the two deltas, clamp an out-of-bounds channel to the nearest
bound and add one additional negated draw of the same sigma, round for the
returned pair only, and keep the unrounded values as the running state. -/
def readSpec (s : MockDHT22) : (ℚ × ℚ) × MockDHT22 :=
  let i := s.rng.idx
  let t1 := s.t + s.t_sigma * s.rng.stream i
  let h1 := s.h + s.h_sigma * s.rng.stream (i + 1)
  let tOut := t1 < s.t_bounds.1 ∨ s.t_bounds.2 < t1
  let t2 := if tOut then
      max (min t1 s.t_bounds.2) s.t_bounds.1 - s.t_sigma * s.rng.stream (i + 2)
    else t1
  let j := if tOut then i + 3 else i + 2
  let hOut := h1 < s.h_bounds.1 ∨ s.h_bounds.2 < h1
  let h2 := if hOut then
      max (min h1 s.h_bounds.2) s.h_bounds.1 - s.h_sigma * s.rng.stream j
    else h1
  let j2 := if hOut then j + 1 else j
  ((pyRound1 t2, pyRound1 h2),
   { s with rng := ⟨s.rng.stream, j2⟩, t := t2, h := h2 })

end MockDHT22

/-- Draw stream refuting the claim that values always stay within bounds:
the first temperature delta overshoots the lower bound and the corrective
draw then pushes the clamped value below the lower bound again. -/
def cexBoundsStream : Nat → ℚ :=
  fun i => if i = 0 then -40 else if i = 2 then 10 else 0

/-- Default-configured generator running on `cexBoundsStream`. -/
def gBoundsCex : MockDHT22 := MockDHT22.initDefault cexBoundsStream

/-- Draw stream refuting the pinning claim for `min == max` bounds: the
corrective draws of the first two reads are both `10`. -/
def cexPinStream : Nat → ℚ :=
  fun i => if i = 2 then 10 else if i = 5 then 10 else 0

/-- Generator with degenerate temperature bounds `(20, 20)` on
`cexPinStream`; the other arguments are the source defaults. -/
def gPinCex : MockDHT22 :=
  MockDHT22.init cexPinStream 23.5 50.0 (20.0, 20.0) (30.0, 70.0) 0.15 0.4

/-- Generator with both step sigmas zero and in-bounds start values, on an
arbitrary nonzero stream. -/
def gFrozen : MockDHT22 :=
  MockDHT22.init (fun _ => 3) 23.5 50.0 (18.0, 30.0) (30.0, 70.0) 0 0

/-- Model of the loop of `run` (src/log_sensors_mock.py): each iteration
reads the sensor, appends one reading, increments `n`, and breaks when
`0 < count <= n`.  The unbounded `while True` loop is modelled with a fuel
bound: the result is the list of appended readings and whether the loop
terminated through its break within `fuel` iterations. -/
def runFuel (count : Int) : MockDHT22 → Nat → Nat → List (ℚ × ℚ) × Bool
  | _, _, 0 => ([], false)
  | s, n, fuel + 1 =>
    let r := s.read
    let n' := n + 1
    if 0 < count ∧ count ≤ (n' : Int) then ([r.1], true)
    else
      let rest := runFuel count r.2 n' fuel
      (r.1 :: rest.1, rest.2)

/-- JSON values, the payloads and parsed schema files of the repository. -/
inductive Json where
  | null : Json
  | bool : Bool → Json
  | num : ℚ → Json
  | str : String → Json
  | arr : List Json → Json
  | obj : List (String × Json) → Json

/-- Modelled from the spec: the `type` keyword values the Draft 2020-12
fragment used by the repository's schema documents needs (the schema files
themselves are not under src/). -/
inductive JsonType where
  | object | array | string | number | integer | boolean | null
deriving DecidableEq

/-- Modelled from the spec: a JSON Schema of the Draft 2020-12 fragment the
repository's schema documents use — an optional `type` keyword, a
`required` list of property names, and nested `properties` subschemas. -/
inductive Schema where
  | mk : Option JsonType → List String → List (String × Schema) → Schema

/-- Modelled from the spec: Draft 2020-12 `type` keyword semantics for the
supported type names. -/
def typeMatches : JsonType → Json → Bool
  | .object, .obj _ => true
  | .array, .arr _ => true
  | .string, .str _ => true
  | .number, .num _ => true
  | .integer, .num q => q.den = 1
  | .boolean, .bool _ => true
  | .null, .null => true
  | _, _ => false

/-- The value of a property of a JSON object, when present. -/
def lookupField (fields : List (String × Json)) (k : String) : Option Json :=
  (fields.find? (fun p => p.1 == k)).map (fun p => p.2)

/-- The first name of `req` missing among an object's fields, when any. -/
def firstMissing (req : List String) (fields : List (String × Json)) :
    Option String :=
  req.find? (fun r => (lookupField fields r).isNone)

/-- A schema violation: the path within the payload and a message, the
content of the `ValidationError` the validator surfaces. -/
structure SchemaViolation where
  path : List String
  message : String
deriving DecidableEq

mutual
/-- Modelled from the spec: the Draft 2020-12 validation the external
`jsonschema` engine performs on the supported fragment — check the `type`
keyword, then for objects the `required` names and every present property
against its subschema, surfacing the first violation with its path. -/
def validateAt : Schema → Json → List String → Except SchemaViolation Unit
  | Schema.mk ty req props, j, path =>
    if (match ty with | some t => typeMatches t j | none => true) = true then
      match j with
      | Json.obj fields =>
        match firstMissing req fields with
        | some r =>
          Except.error (SchemaViolation.mk path (r ++ " is a required property"))
        | none => validateProps props fields path
      | _ => Except.ok ()
    else Except.error (SchemaViolation.mk path "type mismatch")

/-- Validation of the present properties of an object, in schema order. -/
def validateProps :
    List (String × Schema) → List (String × Json) → List String →
    Except SchemaViolation Unit
  | [], _, _ => Except.ok ()
  | (k, sub) :: rest, fields, path =>
    match lookupField fields k with
    | some v =>
      match validateAt sub v (path ++ [k]) with
      | Except.ok _ => validateProps rest fields path
      | Except.error e => Except.error e
    | none => validateProps rest fields path
end

/-- `validate_payload(payload, schema)` of src/utils/schema_validation.py:
validate the payload against the schema from the root path. -/
def validate_payload (payload : Json) (schema : Schema) :
    Except SchemaViolation Unit :=
  validateAt schema payload []

mutual
/-- Conformance of a payload to a schema, written after the spec's words
(type checks, required-property checks, nested object validation),
independent of the validator's control flow. -/
def conformsB : Schema → Json → Bool
  | Schema.mk ty req props, j =>
    (match ty with | some t => typeMatches t j | none => true) &&
    (match j with
     | Json.obj fields =>
       req.all (fun r => (lookupField fields r).isSome) &&
       conformsProps props fields
     | _ => true)

/-- Conformance of the present properties of an object. -/
def conformsProps : List (String × Schema) → List (String × Json) → Bool
  | [], _ => true
  | (k, sub) :: rest, fields =>
    (match lookupField fields k with
     | some v => conformsB sub v
     | none => true) && conformsProps rest fields
end

/-- Modelled from the spec: the richer sensor schema (the schema file
src/schemas/sensor-data.schema.json is not under src/): required
`timestamp`, `device_id` and `readings`, with nested `readings` and
`anomaly` objects; `readings` requires `temperature_C`, `humidity` and
`air_quality`. -/
def sensorSchemaV02 : Schema :=
  Schema.mk (some JsonType.object)
    ["timestamp", "device_id", "readings"]
    [("timestamp", Schema.mk (some JsonType.string) [] []),
     ("device_id", Schema.mk (some JsonType.string) [] []),
     ("readings", Schema.mk (some JsonType.object)
        ["temperature_C", "humidity", "air_quality"]
        [("temperature_C", Schema.mk (some JsonType.number) [] []),
         ("humidity", Schema.mk (some JsonType.number) [] []),
         ("air_quality", Schema.mk (some JsonType.number) [] [])]),
     ("anomaly", Schema.mk (some JsonType.object)
        ["anomaly_detected", "anomaly_score"]
        [("anomaly_detected", Schema.mk (some JsonType.boolean) [] []),
         ("anomaly_score", Schema.mk (some JsonType.number) [] [])])]

/-- The valid nested payload of test/test_schemas.py. -/
def payloadV02 : Json :=
  Json.obj
    [("timestamp", Json.str "2025-08-16T12:00:00Z"),
     ("device_id", Json.str "edge-node-001"),
     ("readings", Json.obj
        [("temperature_C", Json.num 28.4),
         ("humidity", Json.num 55.2),
         ("air_quality", Json.num 140)]),
     ("anomaly", Json.obj
        [("anomaly_detected", Json.bool false),
         ("anomaly_score", Json.num 0.02)])]

/-- The invalid payload of test/test_schemas.py: `readings` lacks the
required `temperature_C`. -/
def payloadMissingTemp : Json :=
  Json.obj
    [("timestamp", Json.str "2025-08-16T12:10:00Z"),
     ("device_id", Json.str "edge-node-001"),
     ("readings", Json.obj [("humidity", Json.num 55.2)])]

/-- File-system paths, as segment lists. -/
abbrev FsPath := List String

/-- The not-found failure of `load_schema`, carrying every attempted
candidate location (the content of its `FileNotFoundError` message). -/
structure SchemaNotFound where
  tried : List FsPath
deriving DecidableEq

/-- The first existing candidate's parsed content, in candidate order;
models the for-loop of `load_schema`.  The file system is a partial map
from paths to parsed JSON content (`none` = the path does not exist). -/
def firstExisting (fs : FsPath → Option Json) : List FsPath → Option Json
  | [] => none
  | c :: rest =>
    match fs c with
    | some j => some j
    | none => firstExisting fs rest

/-- `load_schema(rel_path)` of src/utils/schema_validation.py: try the path
itself, then under the project root, then under the source root; return the
first existing candidate's parsed JSON, else fail naming every candidate. -/
def load_schema (fs : FsPath → Option Json) (project_root src_root rel : FsPath) :
    Except SchemaNotFound Json :=
  let candidates := [rel, project_root ++ rel, src_root ++ rel]
  match firstExisting fs candidates with
  | some j => Except.ok j
  | none => Except.error (SchemaNotFound.mk candidates)

namespace MockDHT22

/-- Explicit form of `read`: the returned pair is the rounding of the new
unrounded values, the state keeps the unrounded values, and the stream
position advances by `drawsUsed`. -/
theorem read_eq (s : MockDHT22) :
    s.read = ((pyRound1 s.tNext, pyRound1 s.hNext),
      { s with rng := ⟨s.rng.stream, s.rng.idx + s.drawsUsed⟩,
               t := s.tNext, h := s.hNext }) := by
  unfold read Rng.gauss
  unfold tNext hNext drawsUsed tCorr hCorr
  unfold tempClamps humClamps tempDrift humDrift
  by_cases h1 : s.t + s.t_sigma * s.rng.stream s.rng.idx < s.t_bounds.1 ∨
      s.t_bounds.2 < s.t + s.t_sigma * s.rng.stream s.rng.idx <;>
    by_cases h2 : s.h + s.h_sigma * s.rng.stream (s.rng.idx + 1) < s.h_bounds.1 ∨
        s.h_bounds.2 < s.h + s.h_sigma * s.rng.stream (s.rng.idx + 1) <;>
    simp only [h1, h2, ite_true, ite_false, Prod.mk.injEq, MockDHT22.mk.injEq,
      Rng.mk.injEq] <;>
    and_intros <;>
    first
      | rfl
      | omega
      | (congr 1 <;> ring_nf)
      | ring_nf

theorem read_fst (s : MockDHT22) :
    s.read.1 = (pyRound1 s.tNext, pyRound1 s.hNext) := by rw [read_eq]

theorem read_snd_t (s : MockDHT22) : s.read.2.t = s.tNext := by rw [read_eq]

theorem read_snd_h (s : MockDHT22) : s.read.2.h = s.hNext := by rw [read_eq]

theorem read_snd_idx (s : MockDHT22) :
    s.read.2.rng.idx = s.rng.idx + s.drawsUsed := by rw [read_eq]

theorem read_snd_stream (s : MockDHT22) :
    s.read.2.rng.stream = s.rng.stream := by rw [read_eq]

theorem read_snd_t_bounds (s : MockDHT22) :
    s.read.2.t_bounds = s.t_bounds := by rw [read_eq]

theorem read_snd_h_bounds (s : MockDHT22) :
    s.read.2.h_bounds = s.h_bounds := by rw [read_eq]

theorem read_snd_t_sigma (s : MockDHT22) :
    s.read.2.t_sigma = s.t_sigma := by rw [read_eq]

theorem read_snd_h_sigma (s : MockDHT22) :
    s.read.2.h_sigma = s.h_sigma := by rw [read_eq]

theorem iter_t_bounds (s : MockDHT22) (n : Nat) :
    (s.iter n).t_bounds = s.t_bounds := by
  induction n generalizing s with
  | zero => rfl
  | succ n ih => show (s.read.2.iter n).t_bounds = _
                 rw [ih, read_snd_t_bounds]

theorem iter_t_sigma (s : MockDHT22) (n : Nat) :
    (s.iter n).t_sigma = s.t_sigma := by
  induction n generalizing s with
  | zero => rfl
  | succ n ih => show (s.read.2.iter n).t_sigma = _
                 rw [ih, read_snd_t_sigma]

end MockDHT22

/-- C1: two `MockDHT22` generators constructed independently with the same
arguments — the same seed selects the same standard-normal draw stream —
and each sampled `n` times via `read` produce element-wise identical
sequences of (temperature, humidity) pairs. -/
theorem mockDHT22_same_seed_deterministic (stream : Nat → ℚ)
    (t0 h0 : ℚ) (tb hb : ℚ × ℚ) (ts hs : ℚ) (n : Nat) (g1 g2 : MockDHT22)
    (hg1 : g1 = MockDHT22.init stream t0 h0 tb hb ts hs)
    (hg2 : g2 = MockDHT22.init stream t0 h0 tb hb ts hs) :
    g1.sampleSeq n = g2.sampleSeq n := by
  subst hg1; subst hg2; rfl

/-- Witness for C1 at a concrete stream, the default configuration and
three samples. -/
theorem mockDHT22_same_seed_deterministic_witness :
    (MockDHT22.init (fun _ => 1) 23.5 50.0 (18.0, 30.0) (30.0, 70.0) 0.15
        0.4).sampleSeq 3
      = (MockDHT22.init (fun _ => 1) 23.5 50.0 (18.0, 30.0) (30.0, 70.0) 0.15
          0.4).sampleSeq 3 :=
  mockDHT22_same_seed_deterministic (fun _ => 1) 23.5 50.0 (18.0, 30.0)
    (30.0, 70.0) 0.15 0.4 3 _ _ rfl rfl

/-- C3: a `read` call performs exactly the spec's per-call step — one draw
per channel added to the value, then, exactly for a channel whose updated
value left `[min, max]`, a clamp to the nearest bound followed by one
additional negated draw — and the stream position advances by two draws
plus one per clamped channel, so the position after a sample depends on
which channels clamped. -/
theorem read_follows_reflecting_policy (s : MockDHT22) :
    s.read = s.readSpec ∧
    s.read.2.rng.idx = s.rng.idx + 2 + (if s.tempClamps then 1 else 0)
      + (if s.humClamps then 1 else 0) := by
  constructor
  · rw [MockDHT22.read_eq]
    unfold MockDHT22.readSpec MockDHT22.tNext MockDHT22.hNext
      MockDHT22.drawsUsed MockDHT22.tCorr MockDHT22.hCorr
    unfold MockDHT22.tempClamps MockDHT22.humClamps MockDHT22.tempDrift
      MockDHT22.humDrift
    by_cases h1 : s.t + s.t_sigma * s.rng.stream s.rng.idx < s.t_bounds.1 ∨
        s.t_bounds.2 < s.t + s.t_sigma * s.rng.stream s.rng.idx <;>
      by_cases h2 : s.h + s.h_sigma * s.rng.stream (s.rng.idx + 1) <
          s.h_bounds.1 ∨
          s.h_bounds.2 < s.h + s.h_sigma * s.rng.stream (s.rng.idx + 1) <;>
      simp only [h1, h2, ite_true, ite_false, Prod.mk.injEq,
        MockDHT22.mk.injEq, Rng.mk.injEq] <;>
      and_intros <;>
      first
        | rfl
        | omega
        | (congr 1 <;> ring_nf)
        | ring_nf
  · rw [MockDHT22.read_snd_idx]
    unfold MockDHT22.drawsUsed
    by_cases h1 : s.tempClamps <;> by_cases h2 : s.humClamps <;>
      simp [h1, h2] <;> omega

/-- C6: the pairs `read` returns are the one-decimal roundings of the
unrounded walk values the state retains — the sample sequence is the
pointwise rounding of the internal trajectory, and the retained state holds
the unrounded next values, never their rounded presentation. -/
theorem mockDHT22_rounding_not_fed_back (s : MockDHT22) (n : Nat) :
    s.sampleSeq n
      = (s.trajectory n).map (fun st => (pyRound1 st.t, pyRound1 st.h)) ∧
    s.read.2.t = s.tNext ∧ s.read.2.h = s.hNext := by
  refine ⟨?_, MockDHT22.read_snd_t s, MockDHT22.read_snd_h s⟩
  induction n generalizing s with
  | zero => rfl
  | succ n ih =>
    show s.read.1 :: s.read.2.sampleSeq n
        = (s.read.2 :: s.read.2.trajectory n).map _
    rw [List.map_cons, ih s.read.2, MockDHT22.read_fst,
      MockDHT22.read_snd_t, MockDHT22.read_snd_h]

/-- A value clamped into `[lo, hi]` and then nudged by `-c` stays within
the interval widened by `|c|` on both sides. -/
theorem clamp_slack (lo hi d c : ℚ) (hlohi : lo ≤ hi) :
    lo - |c| ≤ max (min d hi) lo - c ∧ max (min d hi) lo - c ≤ hi + |c| := by
  constructor
  · have h1 := le_abs_self c
    have h2 := le_max_right (min d hi) lo
    linarith
  · have h1 := neg_abs_le c
    have h2 : max (min d hi) lo ≤ hi := max_le (min_le_right d hi) hlohi
    linarith

/-- Channel-generic slack bound for the clamp-then-nudge update. -/
theorem slack_generic (P : Prop) [Decidable P] (lo hi d c : ℚ)
    (hlohi : lo ≤ hi) (hP : ¬ P → lo ≤ d ∧ d ≤ hi) (hc : ¬ P → c = 0) :
    (lo - |c| ≤ (if P then max (min d hi) lo - c else d)) ∧
    ((if P then max (min d hi) lo - c else d) ≤ hi + |c|) := by
  by_cases hp : P
  · rw [if_pos hp]
    exact clamp_slack lo hi d c hlohi
  · rw [if_neg hp, hc hp, abs_zero, sub_zero, add_zero]
    exact hP hp

/-- C2 fails on the code: on a possible draw stream, one `read` of a
default-configured generator returns temperature `16.5 < 18.0` and also
stores an out-of-bounds internal temperature — the corrective nudge applied
after the clamp can leave the bounds again. -/
theorem mockDHT22_bounds_invariant_cex :
    gBoundsCex.read.1.1 < 18 ∧ gBoundsCex.read.2.t < 18 := by
  have hb : gBoundsCex.t_bounds = (18.0, 30.0) := rfl
  have hdr : gBoundsCex.tempDrift = 17.5 := by
    show (23.5 : ℚ) + 0.15 * cexBoundsStream 0 = 17.5
    norm_num [cexBoundsStream]
  have hcl : gBoundsCex.tempClamps := by
    unfold MockDHT22.tempClamps
    rw [hdr, hb]
    left; norm_num
  have hcorr : gBoundsCex.tCorr = 1.5 := by
    unfold MockDHT22.tCorr
    rw [if_pos hcl]
    show (0.15 : ℚ) * cexBoundsStream 2 = 1.5
    norm_num [cexBoundsStream]
  have hnext : gBoundsCex.tNext = 16.5 := by
    unfold MockDHT22.tNext
    rw [if_pos hcl, hdr, hb, hcorr]
    norm_num [min_def, max_def]
  have hround : pyRound1 16.5 = 16.5 := by
    unfold pyRound1 roundHalfEven
    norm_num
  constructor
  · rw [MockDHT22.read_fst]
    show pyRound1 gBoundsCex.tNext < 18
    rw [hnext, hround]
    norm_num
  · rw [MockDHT22.read_snd_t, hnext]
    norm_num

/-- C2 amended: after every `read`, each channel lies within its bounds
widened by the magnitude of that read's scaled corrective draw; exactly the
reads in which the channel does not clamp are guaranteed to leave it within
the bounds themselves. -/
theorem mockDHT22_bounds_within_corrective_slack (s : MockDHT22)
    (ht : s.t_bounds.1 ≤ s.t_bounds.2) (hh : s.h_bounds.1 ≤ s.h_bounds.2) :
    (s.t_bounds.1 - |s.tCorr| ≤ s.read.2.t ∧
       s.read.2.t ≤ s.t_bounds.2 + |s.tCorr|) ∧
    (s.h_bounds.1 - |s.hCorr| ≤ s.read.2.h ∧
       s.read.2.h ≤ s.h_bounds.2 + |s.hCorr|) ∧
    (¬ s.tempClamps →
       s.t_bounds.1 ≤ s.read.2.t ∧ s.read.2.t ≤ s.t_bounds.2) ∧
    (¬ s.humClamps →
       s.h_bounds.1 ≤ s.read.2.h ∧ s.read.2.h ≤ s.h_bounds.2) := by
  have hT : ¬ s.tempClamps → s.t_bounds.1 ≤ s.tempDrift ∧
      s.tempDrift ≤ s.t_bounds.2 := by
    intro hn
    unfold MockDHT22.tempClamps at hn
    push_neg at hn
    exact hn
  have hH : ¬ s.humClamps → s.h_bounds.1 ≤ s.humDrift ∧
      s.humDrift ≤ s.h_bounds.2 := by
    intro hn
    unfold MockDHT22.humClamps at hn
    push_neg at hn
    exact hn
  have hTc : ¬ s.tempClamps → s.tCorr = 0 := by
    intro hn; unfold MockDHT22.tCorr; rw [if_neg hn]
  have hHc : ¬ s.humClamps → s.hCorr = 0 := by
    intro hn; unfold MockDHT22.hCorr; rw [if_neg hn]
  refine ⟨?_, ?_, ?_, ?_⟩
  · rw [MockDHT22.read_snd_t]
    unfold MockDHT22.tNext
    exact slack_generic s.tempClamps s.t_bounds.1 s.t_bounds.2 s.tempDrift
      s.tCorr ht hT hTc
  · rw [MockDHT22.read_snd_h]
    unfold MockDHT22.hNext
    exact slack_generic s.humClamps s.h_bounds.1 s.h_bounds.2 s.humDrift
      s.hCorr hh hH hHc
  · intro hn
    rw [MockDHT22.read_snd_t]
    unfold MockDHT22.tNext
    rw [if_neg hn]
    exact hT hn
  · intro hn
    rw [MockDHT22.read_snd_h]
    unfold MockDHT22.hNext
    rw [if_neg hn]
    exact hH hn

/-- Witness for the amended C2 at the concrete counterexample generator. -/
theorem mockDHT22_bounds_within_corrective_slack_witness :
    (gBoundsCex.t_bounds.1 - |gBoundsCex.tCorr| ≤ gBoundsCex.read.2.t ∧
       gBoundsCex.read.2.t ≤ gBoundsCex.t_bounds.2 + |gBoundsCex.tCorr|) ∧
    (gBoundsCex.h_bounds.1 - |gBoundsCex.hCorr| ≤ gBoundsCex.read.2.h ∧
       gBoundsCex.read.2.h ≤ gBoundsCex.h_bounds.2 + |gBoundsCex.hCorr|) ∧
    (¬ gBoundsCex.tempClamps →
       gBoundsCex.t_bounds.1 ≤ gBoundsCex.read.2.t ∧
       gBoundsCex.read.2.t ≤ gBoundsCex.t_bounds.2) ∧
    (¬ gBoundsCex.humClamps →
       gBoundsCex.h_bounds.1 ≤ gBoundsCex.read.2.h ∧
       gBoundsCex.read.2.h ≤ gBoundsCex.h_bounds.2) :=
  mockDHT22_bounds_within_corrective_slack gBoundsCex
    (by show (18.0 : ℚ) ≤ 30.0; norm_num)
    (by show (30.0 : ℚ) ≤ 70.0; norm_num)

/-- With degenerate temperature bounds `(c, c)`, every `read` leaves the
internal temperature at `c` minus the scaled corrective draw. -/
theorem pin_step (s : MockDHT22) (c : ℚ) (hb : s.t_bounds = (c, c)) :
    s.read.2.t = c - s.tCorr := by
  rw [MockDHT22.read_snd_t]
  unfold MockDHT22.tNext
  by_cases hcl : s.tempClamps
  · rw [if_pos hcl]
    congr 1
    rw [hb]
    exact max_eq_right (min_le_right _ _)
  · rw [if_neg hcl]
    have hc0 : s.tCorr = 0 := by
      unfold MockDHT22.tCorr; rw [if_neg hcl]
    rw [hc0, sub_zero]
    unfold MockDHT22.tempClamps at hcl
    push_neg at hcl
    rw [hb] at hcl
    exact le_antisymm hcl.2 hcl.1

/-- A zero temperature sigma makes the corrective temperature draw zero. -/
theorem tCorr_zero (s : MockDHT22) (hσ : s.t_sigma = 0) : s.tCorr = 0 := by
  unfold MockDHT22.tCorr
  split_ifs <;> simp [hσ]

/-- C7 fails on the code: with temperature bounds `(20, 20)` the first read
clamps, yet the second read returns `18.5`, not the pinned point `20` —
after each clamp the corrective nudge moves the value off the pin. -/
theorem mockDHT22_pinned_cex :
    gPinCex.t_bounds = (20.0, 20.0) ∧ gPinCex.tempClamps ∧
    ((gPinCex.sampleSeq 2).getD 1 (0, 0)).1 ≠ 20 := by
  have hb0 : gPinCex.t_bounds = (20.0, 20.0) := rfl
  have hdr0 : gPinCex.tempDrift = 23.5 := by
    show (23.5 : ℚ) + 0.15 * cexPinStream 0 = 23.5
    norm_num [cexPinStream]
  have hcl0 : gPinCex.tempClamps := by
    unfold MockDHT22.tempClamps
    rw [hdr0, hb0]
    right; norm_num
  have hdh0 : gPinCex.humDrift = 50 := by
    show (50.0 : ℚ) + 0.4 * cexPinStream 1 = 50
    norm_num [cexPinStream]
  have hbh0 : gPinCex.h_bounds = (30.0, 70.0) := rfl
  have hhn0 : ¬ gPinCex.humClamps := by
    unfold MockDHT22.humClamps
    rw [hdh0, hbh0]
    push_neg
    constructor <;> norm_num
  have hcorr0 : gPinCex.tCorr = 1.5 := by
    unfold MockDHT22.tCorr
    rw [if_pos hcl0]
    show (0.15 : ℚ) * cexPinStream (0 + 2) = 1.5
    norm_num [cexPinStream]
  have e_stream : gPinCex.read.2.rng.stream = cexPinStream := by
    rw [MockDHT22.read_snd_stream]
    rfl
  have e_idx : gPinCex.read.2.rng.idx = 3 := by
    rw [MockDHT22.read_snd_idx]
    unfold MockDHT22.drawsUsed
    rw [if_pos hcl0, if_neg hhn0]
    rfl
  have e_t : gPinCex.read.2.t = 18.5 := by
    rw [MockDHT22.read_snd_t]
    unfold MockDHT22.tNext
    rw [if_pos hcl0, hdr0, hb0, hcorr0]
    norm_num [min_def, max_def]
  have e_bounds : gPinCex.read.2.t_bounds = (20.0, 20.0) := by
    rw [MockDHT22.read_snd_t_bounds]
    rfl
  have e_sigma : gPinCex.read.2.t_sigma = 0.15 := by
    rw [MockDHT22.read_snd_t_sigma]
    rfl
  have hdr1 : gPinCex.read.2.tempDrift = 18.5 := by
    unfold MockDHT22.tempDrift
    rw [e_t, e_sigma, e_stream, e_idx]
    norm_num [cexPinStream]
  have hcl1 : gPinCex.read.2.tempClamps := by
    unfold MockDHT22.tempClamps
    rw [hdr1, e_bounds]
    left; norm_num
  have hcorr1 : gPinCex.read.2.tCorr = 1.5 := by
    unfold MockDHT22.tCorr
    rw [if_pos hcl1, e_sigma, e_stream, e_idx]
    norm_num [cexPinStream]
  have hnext1 : gPinCex.read.2.tNext = 18.5 := by
    unfold MockDHT22.tNext
    rw [if_pos hcl1, hdr1, e_bounds, hcorr1]
    norm_num [min_def, max_def]
  refine ⟨hb0, hcl0, ?_⟩
  show gPinCex.read.2.read.1.1 ≠ 20
  rw [MockDHT22.read_fst]
  show pyRound1 gPinCex.read.2.tNext ≠ 20
  rw [hnext1]
  have hr : pyRound1 18.5 = 18.5 := by
    unfold pyRound1 roundHalfEven
    norm_num
  rw [hr]
  norm_num

/-- C7 amended: with `min == max = c` for the temperature channel, each
`read` clamps the value to `c` and then offsets it by the negated scaled
corrective draw, so the post-read value is `c - tCorr`; the channel is
exactly pinned at `c` from the first clamp onward precisely in the
degenerate case `sigma = 0`, in which every subsequent read returns
`round(c, 1)`. -/
theorem mockDHT22_min_eq_max_offset (s : MockDHT22) (c : ℚ)
    (hb : s.t_bounds = (c, c)) :
    s.read.2.t = c - s.tCorr ∧
    (s.t_sigma = 0 → ∀ n : Nat,
       (s.iter n).read.2.t = c ∧ (s.iter n).read.1.1 = pyRound1 c) := by
  refine ⟨pin_step s c hb, ?_⟩
  intro hσ n
  have hbn : (s.iter n).t_bounds = (c, c) := by
    rw [MockDHT22.iter_t_bounds, hb]
  have hσn : (s.iter n).t_sigma = 0 := by
    rw [MockDHT22.iter_t_sigma, hσ]
  have h1 : (s.iter n).read.2.t = c - (s.iter n).tCorr := pin_step _ c hbn
  have h2 : (s.iter n).tCorr = 0 := tCorr_zero _ hσn
  constructor
  · rw [h1, h2, sub_zero]
  · rw [MockDHT22.read_fst]
    show pyRound1 (s.iter n).tNext = pyRound1 c
    congr 1
    rw [← MockDHT22.read_snd_t, h1, h2, sub_zero]

/-- Witness for the amended C7 at the concrete degenerate-bounds
generator. -/
theorem mockDHT22_min_eq_max_offset_witness :
    gPinCex.read.2.t = 20.0 - gPinCex.tCorr ∧
    (gPinCex.t_sigma = 0 → ∀ n : Nat,
       (gPinCex.iter n).read.2.t = 20.0 ∧
       (gPinCex.iter n).read.1.1 = pyRound1 20.0) :=
  mockDHT22_min_eq_max_offset gPinCex 20.0 rfl

/-- One step of the degenerate temperature walk: with `sigma = 0` and an
in-bounds value, the reflect branch is not taken, the value does not move,
and the returned temperature is its rounding. -/
theorem freeze_t_step (s : MockDHT22) (hσ : s.t_sigma = 0)
    (hlo : s.t_bounds.1 ≤ s.t) (hhi : s.t ≤ s.t_bounds.2) :
    ¬ s.tempClamps ∧ s.read.2.t = s.t ∧ s.read.1.1 = pyRound1 s.t := by
  have hd : s.tempDrift = s.t := by
    unfold MockDHT22.tempDrift
    rw [hσ]; ring
  have hnc : ¬ s.tempClamps := by
    unfold MockDHT22.tempClamps
    rw [hd]
    push_neg
    exact ⟨hlo, hhi⟩
  have hn : s.tNext = s.t := by
    unfold MockDHT22.tNext
    rw [if_neg hnc, hd]
  refine ⟨hnc, ?_, ?_⟩
  · rw [MockDHT22.read_snd_t, hn]
  · rw [MockDHT22.read_fst]
    show pyRound1 s.tNext = pyRound1 s.t
    rw [hn]

/-- One step of the degenerate humidity walk. -/
theorem freeze_h_step (s : MockDHT22) (hσ : s.h_sigma = 0)
    (hlo : s.h_bounds.1 ≤ s.h) (hhi : s.h ≤ s.h_bounds.2) :
    ¬ s.humClamps ∧ s.read.2.h = s.h ∧ s.read.1.2 = pyRound1 s.h := by
  have hd : s.humDrift = s.h := by
    unfold MockDHT22.humDrift
    rw [hσ]; ring
  have hnc : ¬ s.humClamps := by
    unfold MockDHT22.humClamps
    rw [hd]
    push_neg
    exact ⟨hlo, hhi⟩
  have hn : s.hNext = s.h := by
    unfold MockDHT22.hNext
    rw [if_neg hnc, hd]
  refine ⟨hnc, ?_, ?_⟩
  · rw [MockDHT22.read_snd_h, hn]
  · rw [MockDHT22.read_fst]
    show pyRound1 s.hNext = pyRound1 s.h
    rw [hn]

/-- The degenerate temperature walk over any number of reads. -/
theorem freeze_t (s : MockDHT22) (n : Nat) (hσ : s.t_sigma = 0)
    (hlo : s.t_bounds.1 ≤ s.t) (hhi : s.t ≤ s.t_bounds.2) :
    (s.iter n).t = s.t ∧ (∀ k, k < n → ¬ (s.iter k).tempClamps) ∧
    ∀ p ∈ s.sampleSeq n, p.1 = pyRound1 s.t := by
  induction n generalizing s with
  | zero =>
    refine ⟨rfl, ?_, ?_⟩
    · intro k hk; omega
    · intro p hp; cases hp
  | succ n ih =>
    obtain ⟨hnc, hts, hout⟩ := freeze_t_step s hσ hlo hhi
    have hσ2 : s.read.2.t_sigma = 0 := by
      rw [MockDHT22.read_snd_t_sigma]; exact hσ
    have hlo2 : s.read.2.t_bounds.1 ≤ s.read.2.t := by
      rw [MockDHT22.read_snd_t_bounds, hts]; exact hlo
    have hhi2 : s.read.2.t ≤ s.read.2.t_bounds.2 := by
      rw [MockDHT22.read_snd_t_bounds, hts]; exact hhi
    obtain ⟨ih1, ih2, ih3⟩ := ih s.read.2 hσ2 hlo2 hhi2
    refine ⟨?_, ?_, ?_⟩
    · show (s.read.2.iter n).t = s.t
      rw [ih1, hts]
    · intro k hk
      cases k with
      | zero => exact hnc
      | succ k =>
        show ¬ (s.read.2.iter k).tempClamps
        exact ih2 k (by omega)
    · intro p hp
      have hp2 : p = s.read.1 ∨ p ∈ s.read.2.sampleSeq n := by
        simpa [MockDHT22.sampleSeq] using hp
      rcases hp2 with hp2 | hp2
      · rw [hp2]; exact hout
      · rw [ih3 p hp2, hts]

/-- The degenerate humidity walk over any number of reads. -/
theorem freeze_h (s : MockDHT22) (n : Nat) (hσ : s.h_sigma = 0)
    (hlo : s.h_bounds.1 ≤ s.h) (hhi : s.h ≤ s.h_bounds.2) :
    (s.iter n).h = s.h ∧ (∀ k, k < n → ¬ (s.iter k).humClamps) ∧
    ∀ p ∈ s.sampleSeq n, p.2 = pyRound1 s.h := by
  induction n generalizing s with
  | zero =>
    refine ⟨rfl, ?_, ?_⟩
    · intro k hk; omega
    · intro p hp; cases hp
  | succ n ih =>
    obtain ⟨hnc, hts, hout⟩ := freeze_h_step s hσ hlo hhi
    have hσ2 : s.read.2.h_sigma = 0 := by
      rw [MockDHT22.read_snd_h_sigma]; exact hσ
    have hlo2 : s.read.2.h_bounds.1 ≤ s.read.2.h := by
      rw [MockDHT22.read_snd_h_bounds, hts]; exact hlo
    have hhi2 : s.read.2.h ≤ s.read.2.h_bounds.2 := by
      rw [MockDHT22.read_snd_h_bounds, hts]; exact hhi
    obtain ⟨ih1, ih2, ih3⟩ := ih s.read.2 hσ2 hlo2 hhi2
    refine ⟨?_, ?_, ?_⟩
    · show (s.read.2.iter n).h = s.h
      rw [ih1, hts]
    · intro k hk
      cases k with
      | zero => exact hnc
      | succ k =>
        show ¬ (s.read.2.iter k).humClamps
        exact ih2 k (by omega)
    · intro p hp
      have hp2 : p = s.read.1 ∨ p ∈ s.read.2.sampleSeq n := by
        simpa [MockDHT22.sampleSeq] using hp
      rcases hp2 with hp2 | hp2
      · rw [hp2]; exact hout
      · rw [ih3 p hp2, hts]

/-- C8: a channel whose step sigma is `0` never moves, whatever the other
channel does: across any number of `read` calls its internal value stays at
the (in-bounds) starting value, the reflect branch is never taken for it,
and every returned sample carries the rounded starting value. -/
theorem mockDHT22_sigma_zero_frozen (s : MockDHT22) (n : Nat) :
    (s.t_sigma = 0 → s.t_bounds.1 ≤ s.t → s.t ≤ s.t_bounds.2 →
       (s.iter n).t = s.t ∧ (∀ k, k < n → ¬ (s.iter k).tempClamps) ∧
       ∀ p ∈ s.sampleSeq n, p.1 = pyRound1 s.t) ∧
    (s.h_sigma = 0 → s.h_bounds.1 ≤ s.h → s.h ≤ s.h_bounds.2 →
       (s.iter n).h = s.h ∧ (∀ k, k < n → ¬ (s.iter k).humClamps) ∧
       ∀ p ∈ s.sampleSeq n, p.2 = pyRound1 s.h) :=
  ⟨fun hσ hlo hhi => freeze_t s n hσ hlo hhi,
   fun hσ hlo hhi => freeze_h s n hσ hlo hhi⟩

/-- Witness for C8 at a concrete generator with both sigmas zero. -/
theorem mockDHT22_sigma_zero_frozen_witness :
    ((gFrozen.iter 4).t = gFrozen.t ∧
       (∀ k, k < 4 → ¬ (gFrozen.iter k).tempClamps) ∧
       ∀ p ∈ gFrozen.sampleSeq 4, p.1 = pyRound1 gFrozen.t) ∧
    ((gFrozen.iter 4).h = gFrozen.h ∧
       (∀ k, k < 4 → ¬ (gFrozen.iter k).humClamps) ∧
       ∀ p ∈ gFrozen.sampleSeq 4, p.2 = pyRound1 gFrozen.h) :=
  ⟨(mockDHT22_sigma_zero_frozen gFrozen 4).1 rfl
      (by show (18.0 : ℚ) ≤ 23.5; norm_num)
      (by show (23.5 : ℚ) ≤ 30.0; norm_num),
   (mockDHT22_sigma_zero_frozen gFrozen 4).2 rfl
      (by show (30.0 : ℚ) ≤ 50.0; norm_num)
      (by show (50.0 : ℚ) ≤ 70.0; norm_num)⟩

/-- No required name is missing exactly when all required names are
present. -/
theorem firstMissing_none_iff (req : List String)
    (fields : List (String × Json)) :
    firstMissing req fields = none ↔
      req.all (fun r => (lookupField fields r).isSome) = true := by
  unfold firstMissing
  rw [List.find?_eq_none, List.all_eq_true]
  constructor <;> intro h r hr <;> have hh := h r hr <;>
    cases hfind : lookupField fields r <;> simp_all

/-- A missing required name refutes the all-present check. -/
theorem firstMissing_some_all (req : List String)
    (fields : List (String × Json)) (r : String)
    (hfm : firstMissing req fields = some r) :
    req.all (fun r => (lookupField fields r).isSome) = false := by
  unfold firstMissing at hfm
  have hmem := List.mem_of_find?_eq_some hfm
  have hprop := List.find?_some hfm
  rw [List.all_eq_false]
  refine ⟨r, hmem, ?_⟩
  cases hfind : lookupField fields r <;> simp_all

mutual
/-- The modelled validator accepts exactly the payloads that conform in the
sense of the spec-side `conformsB`. -/
theorem validateAt_ok_iff : ∀ (sc : Schema) (j : Json) (path : List String),
    (validateAt sc j path = Except.ok ()) ↔ conformsB sc j = true
  | Schema.mk ty req props, j, path => by
    have hp : ∀ fields,
        (validateProps props fields path = Except.ok ()) ↔
          conformsProps props fields = true :=
      fun fields => validateProps_ok_iff props fields path
    unfold validateAt conformsB
    by_cases hty :
        (match ty with | some t => typeMatches t j | none => true) = true
    · rw [if_pos hty, hty]
      simp only [Bool.true_and]
      cases j with
      | obj fields =>
        cases hfm : firstMissing req fields with
        | some r => simp [hfm, firstMissing_some_all req fields r hfm]
        | none =>
          have hall := (firstMissing_none_iff req fields).1 hfm
          simp [hfm, hall, hp fields]
      | null => simp
      | bool b => simp
      | num q => simp
      | str s2 => simp
      | arr l => simp
    · rw [if_neg hty]
      rw [Bool.not_eq_true] at hty
      simp [hty]

/-- Property-list validation accepts exactly conforming field lists. -/
theorem validateProps_ok_iff :
    ∀ (l : List (String × Schema)) (fields : List (String × Json))
      (path : List String),
    (validateProps l fields path = Except.ok ()) ↔
      conformsProps l fields = true
  | [], fields, path => by simp [validateProps, conformsProps]
  | (k, sub) :: rest, fields, path => by
    have ha := validateAt_ok_iff sub
    have hr := validateProps_ok_iff rest fields path
    unfold validateProps conformsProps
    cases hlk : lookupField fields k with
    | none => simp [hlk, hr]
    | some v =>
      cases hv : validateAt sub v (path ++ [k]) with
      | ok u =>
        cases u
        have h1 := (ha v (path ++ [k])).1 hv
        simp [hlk, hv, h1, hr]
      | error e =>
        have h1 : conformsB sub v = false := by
          cases hcb : conformsB sub v
          · rfl
          · have := (ha v (path ++ [k])).2 hcb
            rw [hv] at this
            exact absurd this (by simp)
        simp [hlk, hv, h1]
end

/-- C4: `validate_payload` returns normally with no value exactly when the
payload conforms to the schema, and otherwise fails with a violation
carrying a path and a message; concretely, the nested
timestamp/device_id/readings/anomaly payload validates against the richer
sensor schema, and removing the required `temperature_C` makes validation
fail at path `readings`. -/
theorem validate_payload_contract :
    (∀ (sc : Schema) (p : Json),
       (validate_payload p sc = Except.ok ()) ↔ conformsB sc p = true) ∧
    (∀ (sc : Schema) (p : Json), conformsB sc p = false →
       ∃ e : SchemaViolation, validate_payload p sc = Except.error e) ∧
    validate_payload payloadV02 sensorSchemaV02 = Except.ok () ∧
    validate_payload payloadMissingTemp sensorSchemaV02 =
      Except.error
        (SchemaViolation.mk ["readings"] "temperature_C is a required property") := by
  refine ⟨fun sc p => validateAt_ok_iff sc p [], ?_, ?_, ?_⟩
  · intro sc p hfalse
    cases hv : validate_payload p sc with
    | ok u =>
      cases u
      have := (validateAt_ok_iff sc p []).1 hv
      rw [this] at hfalse
      exact absurd hfalse (by simp)
    | error e => exact ⟨e, rfl⟩
  · rfl
  · rfl

/-- Witness for C4: the payload without `temperature_C` does not conform,
so validation fails with some violation. -/
theorem validate_payload_contract_witness :
    ∃ e : SchemaViolation,
      validate_payload payloadMissingTemp sensorSchemaV02 = Except.error e :=
  validate_payload_contract.2.1 sensorSchemaV02 payloadMissingTemp rfl

/-- C5: `load_schema` returns the parsed content of the first existing
candidate among the path itself, the path under the project root and the
path under the source root — in that order — and when no candidate exists
it fails with an error naming every attempted candidate location. -/
theorem load_schema_contract (fs : FsPath → Option Json)
    (proot sroot rel : FsPath) :
    (∀ j, load_schema fs proot sroot rel = Except.ok j ↔
       (fs rel = some j ∨
        (fs rel = none ∧ fs (proot ++ rel) = some j) ∨
        (fs rel = none ∧ fs (proot ++ rel) = none ∧
           fs (sroot ++ rel) = some j))) ∧
    (∀ e, load_schema fs proot sroot rel = Except.error e →
       e.tried = [rel, proot ++ rel, sroot ++ rel] ∧
       ∀ c ∈ e.tried, fs c = none) ∧
    (fs rel = none → fs (proot ++ rel) = none → fs (sroot ++ rel) = none →
       load_schema fs proot sroot rel =
         Except.error (SchemaNotFound.mk [rel, proot ++ rel, sroot ++ rel])) := by
  cases h1 : fs rel <;> cases h2 : fs (proot ++ rel) <;>
    cases h3 : fs (sroot ++ rel) <;>
    simp_all [load_schema, firstExisting]

/-- Witness for C5: with no candidate existing, loading fails naming all
three attempted locations. -/
theorem load_schema_contract_witness :
    load_schema (fun _ => (none : Option Json)) ["proj"] ["proj", "src"]
        ["schemas", "sensor.json"] =
      Except.error (SchemaNotFound.mk
        [["schemas", "sensor.json"],
         ["proj", "schemas", "sensor.json"],
         ["proj", "src", "schemas", "sensor.json"]]) :=
  (load_schema_contract (fun _ => none) ["proj"] ["proj", "src"]
      ["schemas", "sensor.json"]).2.2 rfl rfl rfl

/-- A run with `count = 0` never takes the break and appends one reading
per iteration. -/
theorem runFuel_zero (fuel : Nat) :
    ∀ (s : MockDHT22) (n : Nat),
      (runFuel 0 s n fuel).2 = false ∧ (runFuel 0 s n fuel).1.length = fuel := by
  induction fuel with
  | zero => intro s n; exact ⟨rfl, rfl⟩
  | succ fuel ih =>
    intro s n
    have hc : ¬ ((0 : Int) < 0 ∧ (0 : Int) ≤ ((n + 1 : Nat) : Int)) := by
      intro hh; exact absurd hh.1 (by omega)
    simp only [runFuel, if_neg hc]
    obtain ⟨ih1, ih2⟩ := ih s.read.2 (n + 1)
    exact ⟨ih1, by simpa using ih2⟩

/-- A run with positive `count` that has enough fuel breaks after emitting
exactly `count - n` further readings. -/
theorem runFuel_pos (c : Int) (hc : 0 < c) :
    ∀ (fuel : Nat) (s : MockDHT22) (n : Nat), (n : Int) < c →
      c ≤ (n : Int) + fuel →
      (runFuel c s n fuel).1.length = (c - n).toNat ∧
      (runFuel c s n fuel).2 = true := by
  intro fuel
  induction fuel with
  | zero => intro s n hn hfuel; omega
  | succ fuel ih =>
    intro s n hn hfuel
    by_cases hbr : c ≤ ((n + 1 : Nat) : Int)
    · have hcond : (0 : Int) < c ∧ c ≤ ((n + 1 : Nat) : Int) := ⟨hc, hbr⟩
      simp only [runFuel, if_pos hcond]
      constructor
      · show 1 = (c - n).toNat
        omega
      · trivial
    · have hcond : ¬ ((0 : Int) < c ∧ c ≤ ((n + 1 : Nat) : Int)) := by
        intro hh; exact hbr hh.2
      simp only [runFuel, if_neg hcond]
      obtain ⟨ih1, ih2⟩ := ih s.read.2 (n + 1) (by push_cast; omega)
        (by push_cast at hfuel ⊢; omega)
      constructor
      · show (runFuel c s.read.2 (n + 1) fuel).1.length + 1 = (c - n).toNat
        rw [ih1]
        push_cast at hbr
        omega
      · exact ih2

/-- C9: the run loop with `count = 5` appends exactly 5 readings and then
breaks (given enough loop fuel), while `count = 0` — the sentinel for
unbounded generation — never satisfies the break condition: with any fuel
it keeps appending one reading per iteration and never terminates on its
own. -/
theorem run_count_contract (s : MockDHT22) (fuel : Nat) (hf : 5 ≤ fuel) :
    ((runFuel 5 s 0 fuel).1.length = 5 ∧ (runFuel 5 s 0 fuel).2 = true) ∧
    ∀ m : Nat, (runFuel 0 s 0 m).2 = false ∧ (runFuel 0 s 0 m).1.length = m := by
  constructor
  · have h := runFuel_pos 5 (by norm_num) fuel s 0 (by norm_num)
      (by push_cast; omega)
    simpa using h
  · intro m
    exact runFuel_zero m s 0

/-- Witness for C9 at a concrete sensor and fuel 8. -/
theorem run_count_contract_witness :
    ((runFuel 5 gFrozen 0 8).1.length = 5 ∧ (runFuel 5 gFrozen 0 8).2 = true) ∧
    ∀ m : Nat, (runFuel 0 gFrozen 0 m).2 = false ∧
      (runFuel 0 gFrozen 0 m).1.length = m :=
  run_count_contract gFrozen 8 (by norm_num)

/-- C10: the break test `0 < count <= n` makes every non-positive count —
not only the documented sentinel `0` — behave exactly like `count = 0`:
the loop never breaks on its own and appends one reading per iteration. -/
theorem run_nonpositive_unbounded (c : Int) (hc : c ≤ 0) (s : MockDHT22)
    (n fuel : Nat) :
    runFuel c s n fuel = runFuel 0 s n fuel ∧
    (runFuel c s n fuel).2 = false ∧
    (runFuel c s n fuel).1.length = fuel := by
  have heq : ∀ (fuel : Nat) (s : MockDHT22) (n : Nat),
      runFuel c s n fuel = runFuel 0 s n fuel := by
    intro fuel
    induction fuel with
    | zero => intro s n; rfl
    | succ fuel ih =>
      intro s n
      have hc1 : ¬ ((0 : Int) < c ∧ c ≤ ((n + 1 : Nat) : Int)) := by
        intro hh; exact absurd hh.1 (by omega)
      have hc2 : ¬ ((0 : Int) < 0 ∧ (0 : Int) ≤ ((n + 1 : Nat) : Int)) := by
        intro hh; exact absurd hh.1 (by omega)
      simp only [runFuel, if_neg hc1, if_neg hc2, ih s.read.2 (n + 1)]
  refine ⟨heq fuel s n, ?_, ?_⟩
  · rw [heq fuel s n]
    exact (runFuel_zero fuel s n).1
  · rw [heq fuel s n]
    exact (runFuel_zero fuel s n).2

/-- Witness for C10 at the concrete count `-3`. -/
theorem run_nonpositive_unbounded_witness :
    runFuel (-3) gFrozen 0 6 = runFuel 0 gFrozen 0 6 ∧
    (runFuel (-3) gFrozen 0 6).2 = false ∧
    (runFuel (-3) gFrozen 0 6).1.length = 6 :=
  run_nonpositive_unbounded (-3) (by norm_num) gFrozen 0 6
